import Mathlib

/-!
Verification development for the `receptiviti` batch client
(`src/receptiviti/request.py`).

The embedding below translates the pipeline of `request` and `_process`:
deduplication (line 140), the empty-data check (lines 141-142), bundle
preparation (lines 143-167), per-bundle dispatch with retry (`_process`,
lines 17-31), result concatenation (lines 182-187), output writing and
column post-processing (lines 190-213).

Modelling conventions:
* a pandas row of the working frame is a `Record` (`id`, `text`); a missing
  text (NaN) is `none`, distinct from the empty string `some ""`;
* machine arithmetic is exact: the float division `n_texts / k` and
  `numpy.arange` on its result are modelled by exact natural arithmetic
  (`numpy.arange(x)` for a positive float `x` has `⌈x⌉` elements);
* `sys.getsizeof` of a single text and of a whole DataFrame slice are
  opaque size measures, passed in as parameters `szText` and `szDf`
  (pandas implements `__sizeof__` as deep memory usage, which dominates
  the summed sizes of the contained text objects);
* the network is an oracle: dispatching a bundle consumes a list of
  `ApiResponse`s, one per successive send of that bundle;
* fallible steps return `Except String`, carrying the message of the
  exception the Python code raises.
-/

namespace Receptiviti

/-- One input record of the working DataFrame built on request.py line 139:
`data = pandas.DataFrame({"text": text, "id": ids})`.  `text = none` models
a missing (NaN) text. -/
structure Record where
  id : Nat
  text : Option String
deriving DecidableEq, Repr

/-- One normalized result row as produced from the API response body by
`pandas.json_normalize(res.json()["results"])` (request.py line 25); the
correlation field is the `request_id` the client sent (line 19). -/
structure ResultRow where
  request_id : String
deriving DecidableEq, Repr

/-- One HTTP response of the bulk endpoint for a single send of a bundle:
its status code and the `results` list of its JSON body. -/
structure ApiResponse where
  status : Nat
  results : List ResultRow
deriving DecidableEq, Repr

/-! ## Deduplication (request.py line 140)

`data = data[(~data.duplicated(subset=["text"])) | (data["text"] == "") |
(data["text"].isna())]`.  `duplicated` marks a row whose text equals the
text of ANY earlier row (pandas treats NaN as equal to NaN here), so a row
is kept iff no earlier row has the same text, or its text is `""`, or its
text is missing. -/

/-- The filter of line 140, processed front to back; `seen` holds the texts
of all earlier rows (kept or not), mirroring `duplicated`'s view. -/
def dedupAux : List (Option String) → List Record → List Record
  | _, [] => []
  | seen, r :: rest =>
    if !(seen.any fun t => decide (t = r.text)) || decide (r.text = some "")
        || decide (r.text = none) then
      r :: dedupAux (r.text :: seen) rest
    else
      dedupAux (r.text :: seen) rest

/-- Deduplication of the whole input (request.py line 140). -/
def dedup (rs : List Record) : List Record := dedupAux [] rs

/-! ## The empty-data check (request.py lines 141-142)

`if not data.ndim: raise RuntimeError("no valid texts to process")`.
`DataFrame.ndim` is the number of axes of the frame, which is 2 for every
DataFrame, including an empty one. -/

/-- `data.ndim` for the working DataFrame: always 2, whatever the rows. -/
def ndim (_data : List Record) : Nat := 2

/-- Whether line 141 raises: it tests `not data.ndim`, i.e. `ndim = 0`. -/
def noValidTextsRaised (data : List Record) : Bool := ndim data == 0

/-! ## Bundle preparation (request.py lines 143-167) -/

/-- `min(1000, max(1, bundle_size))`, the divisor of line 143. -/
def bundleCount (bundle_size : Nat) : Nat := min 1000 (max 1 bundle_size)

/-- Number of distinct group labels: the length of
`numpy.arange(n_texts / ks + 1)`, i.e. `⌈n_texts / ks⌉ + 1` (line 145). -/
def numGroupLabels (n_texts ks : Nat) : Nat := (n_texts + ks - 1) / ks + 1

/-- The rows whose position is congruent to `g` modulo `m`, in order: the
group labelled `g` of `data.groupby(numpy.tile(numpy.arange(n_bundles + 1),
n_texts)[:n_texts])` (lines 144-146), since position `i` receives label
`i % m` from the tiled (unsorted!) label array. -/
def stride (data : List Record) (m g : Nat) : List Record :=
  ((List.range data.length).filter fun i => decide (i % m = g)).filterMap
    fun i => data[i]?

/-- All non-empty groups in label order, as `groupby` iterates them
(labels ascending, rows of each group in original order). -/
def groupsOf (data : List Record) (m : Nat) : List (List Record) :=
  ((List.range m).map (stride data m)).filter fun b => !b.isEmpty

/-- Message of the oversized-text error (request.py lines 154-157). -/
def oversizedMsg : String := "one of your texts is over the bundle size limit"

/-- Message pandas raises when an array grouper's length differs from the
frame's length, which happens on line 144 whenever deduplication removed
rows (the label array has length `n_texts` but `data` is shorter). -/
def grouperMsg : String := "Grouper and axis must be same length"

/-- The greedy byte re-split of one oversized group (request.py lines
150-165).  `acc` holds (reversed) the records of the currently open slice
`group[start:end]`, `current` the running byte total.  Note the source's
off-by-one: when a record would overflow the open slice, the slice is
closed, `start = end = end + 1` skips that record entirely, yet `current`
is seeded with its size — the model reproduces this by dropping `r` while
starting the new slice with `current = szText r`. -/
def splitLoop (szText : Record → Nat) (limit : Nat) :
    List Record → Nat → List Record → Except String (List (List Record))
  | acc, _current, [] => .ok [acc.reverse]
  | acc, current, r :: rest =>
    if limit < szText r then
      .error oversizedMsg
    else if limit < current + szText r then
      match splitLoop szText limit [] (szText r) rest with
      | .error e => .error e
      | .ok bs => .ok (acc.reverse :: bs)
    else
      splitLoop szText limit (r :: acc) (current + szText r) rest

/-- Processing of one group (request.py lines 148-167): if the whole
DataFrame slice fits under the byte limit it is one bundle, otherwise it is
re-split greedily by per-text sizes. -/
def bundleGroup (szText : Record → Nat) (szDf : List Record → Nat)
    (limit : Nat) (g : List Record) : Except String (List (List Record)) :=
  if limit < szDf g then splitLoop szText limit [] 0 g else .ok [g]

/-- Sequential effectful map over `Except`, stopping at the first error,
as the `for _, group in groups` loop of lines 148-167 does. -/
def mapME {α β : Type} (f : α → Except String β) :
    List α → Except String (List β)
  | [] => .ok []
  | x :: l =>
    match f x with
    | .error e => .error e
    | .ok y =>
      match mapME f l with
      | .error e => .error e
      | .ok ys => .ok (y :: ys)

/-- Whole bundle preparation (request.py lines 143-167) applied to the
deduplicated rows.  The grouper array is built for `n_texts` rows (the
pre-deduplication count), so pandas raises when `data` is shorter. -/
def prepareBundles (szText : Record → Nat) (szDf : List Record → Nat)
    (bundle_size limit n_texts : Nat) (data : List Record) :
    Except String (List (List Record)) :=
  if data.length ≠ n_texts then .error grouperMsg
  else
    match mapME (bundleGroup szText szDf limit)
        (groupsOf data (numGroupLabels n_texts (bundleCount bundle_size))) with
    | .error e => .error e
    | .ok bss => .ok bss.flatten

/-- Total per-text byte size of a bundle: the sum of `sys.getsizeof` over
its records' texts, the measure the greedy re-split accumulates
(request.py lines 151-164). -/
def textSum (szText : Record → Nat) (b : List Record) : Nat :=
  (b.map szText).sum

/-! ## Per-bundle dispatch (`_process`, request.py lines 17-31)

```
res = requests.post(...)
content = None
if res.status_code == 200:
    content = pandas.json_normalize(res.json()["results"])
elif ops["retries"] > 0:
    sleep(1)
    ops["retries"] -= 1
    print(res.text)
    _process(bundle, ops)
return content
```
The recursive retry's return value is DISCARDED (its result is not bound),
and only the mutation of `ops["retries"]` survives, so the function returns
`None` whenever the FIRST response is not a 200.  The oracle list holds the
responses of the successive sends of this bundle. -/

/-- `_process` on one bundle: first component is the returned `content`,
second the final value of the mutated `ops["retries"]`. -/
def processBundle : List ApiResponse → Nat → Option (List ResultRow) × Nat
  | [], retries => (none, retries)
  | res :: rest, retries =>
    if res.status == 200 then
      (some res.results, retries)
    else if 0 < retries then
      (none, (processBundle rest (retries - 1)).2)
    else
      (none, retries)

/-! ## Concatenation (request.py line 187)

`pandas.concat(res, ...)`: `None` entries are dropped silently; if the list
is empty pandas raises "No objects to concatenate", and if every entry is
`None` it raises "All objects passed were None". -/

/-- `pandas.concat` over the per-bundle outcomes. -/
def concatResults (res : List (Option (List ResultRow))) :
    Except String (List ResultRow) :=
  if res.isEmpty then .error "No objects to concatenate"
  else
    let frames := res.filterMap id
    if frames.isEmpty then .error "All objects passed were None"
    else .ok frames.flatten

/-- The bulk-scoring API in the all-successful case: one 200 response whose
`results` hold one row per sent item, carrying back the `request_id`
(the md5 fingerprint of the item's text, request.py line 19) computed by
the supplied `md5` function. -/
def echoApi (md5 : String → String) (b : List Record) : List ApiResponse :=
  [⟨200, b.map fun r => ⟨md5 (r.text.getD "")⟩⟩]

/-- The request pipeline from the deduplication on: dedup (line 140), the
no-valid-texts check (141-142), bundling (143-167), dispatch of each bundle
(182-186) and concatenation (187).  `api` gives each bundle its response
sequence. -/
def runRequest (szText : Record → Nat) (szDf : List Record → Nat)
    (api : List Record → List ApiResponse)
    (bundle_size limit retry_limit : Nat) (records : List Record) :
    Except String (List ResultRow) :=
  let data := dedup records
  if noValidTextsRaised data then .error "no valid texts to process"
  else
    match prepareBundles szText szDf bundle_size limit records.length data with
    | .error e => .error e
    | .ok bundles =>
      concatResults (bundles.map fun b => (processBundle (api b) retry_limit).1)

/-! ## Output writing and column post-processing (request.py lines 190-213) -/

/-- The internal metadata columns dropped on request.py lines 195-201. -/
def metadataColumns : List String :=
  ["response_id", "language", "version", "error", "custom"]

/-- `res.drop(filter(lambda col: col in res.columns, [...]), axis="columns")`
(lines 195-201): remove the metadata columns that are present, keeping the
order of the remaining ones. -/
def dropMetadata (cols : List String) : List String :=
  cols.filter fun c => !(decide (c ∈ metadataColumns))

/-- Lines 190-201 as one step on the column list of the concatenated result:
when `output` is a path, the full table (its columns unchanged) is written
to it first (line 193), and only then are the metadata columns dropped from
the table that flows on to the caller (line 195).  First component: the
columns of the persisted CSV, if one was written; second: the columns of
the table handed on. -/
def writeThenDrop (output : Option String) (cols : List String) :
    Option (List String) × List String :=
  (output.map fun _ => cols, dropMetadata cols)

/-- Whether the regex `^(?:sel1|sel2|...)(?:$|\.)` of line 210 matches a
column name `c` (via `re.search`, as `DataFrame.filter(regex=...)` uses):
`c` is one of the selected names, or starts with one followed by a dot. -/
def colSelected (select : List String) (c : String) : Bool :=
  select.any fun s => decide (c = s) || (s ++ ".").toList.isPrefixOf c.toList

/-- `res.filter(regex=f"^(?:{'|'.join(select)})(?:$|\\.)")` (line 210) on
the column list: keep the matching columns in order. -/
def filterColumns (select : List String) (cols : List String) : List String :=
  cols.filter (colSelected select)

/-- `re.compile("^[^.]+\\.").sub("", col)` (lines 212-213): drop everything
up to and including the first dot, provided at least one non-dot character
comes before it; otherwise the name is unchanged. -/
def stripLeadingFramework (c : String) : String :=
  match c.toList.findIdx? fun ch => decide (ch = '.') with
  | none => c
  | some i => if 0 < i then String.mk (c.toList.drop (i + 1)) else c

/-- Lines 202-213 for a single framework requested as a string `fw`: the
framework list becomes `[fw]`, `framework_prefix` defaults to `False` when
it was not supplied, the columns are filtered by the selection regex for
`["request_id", fw]`, and if the (possibly defaulted) prefix flag is
`False` the leading `name.` is stripped from every surviving column. -/
def postProcessColumns (cols : List String) (fw : String)
    (fp : Option Bool) : List String :=
  let fp' := fp.getD false
  let kept := filterColumns ["request_id", fw] cols
  if fp' = false then kept.map stripLeadingFramework else kept

/-! ## Supporting lemmas about the bundler -/

theorem textSum_cons (szText : Record → Nat) (r : Record) (l : List Record) :
    textSum szText (r :: l) = szText r + textSum szText l := by
  simp [textSum]

theorem textSum_reverse (szText : Record → Nat) (l : List Record) :
    textSum szText l.reverse = textSum szText l := by
  simp [textSum, List.sum_reverse]

theorem one_le_bundleCount (bundle_size : Nat) : 1 ≤ bundleCount bundle_size := by
  unfold bundleCount; omega

/-- Every slice emitted by the greedy re-split keeps its accumulated text
size at most `limit`, and its record count at most the records fed in. -/
theorem splitLoop_bounds (szText : Record → Nat) (limit : Nat)
    (rest : List Record) : ∀ (acc : List Record) (current : Nat)
      (bs : List (List Record)),
    current ≤ limit → textSum szText acc ≤ current →
    splitLoop szText limit acc current rest = .ok bs →
    ∀ b ∈ bs, textSum szText b ≤ limit ∧ b.length ≤ acc.length + rest.length := by
  induction rest with
  | nil =>
    intro acc current bs hcur hacc hok b hb
    unfold splitLoop at hok
    injection hok with hok
    subst hok
    rcases List.mem_singleton.mp hb with rfl
    refine ⟨?_, ?_⟩
    · rw [textSum_reverse]; exact le_trans hacc hcur
    · simp
  | cons r rest ih =>
    intro acc current bs hcur hacc hok b hb
    unfold splitLoop at hok
    by_cases h1 : limit < szText r
    · rw [if_pos h1] at hok; cases hok
    · rw [if_neg h1] at hok
      by_cases h2 : limit < current + szText r
      · rw [if_pos h2] at hok
        cases hrec : splitLoop szText limit [] (szText r) rest with
        | error e => rw [hrec] at hok; cases hok
        | ok bs' =>
          rw [hrec] at hok
          injection hok with hok
          subst hok
          rcases List.mem_cons.mp hb with rfl | hb'
          · refine ⟨?_, ?_⟩
            · rw [textSum_reverse]; exact le_trans hacc hcur
            · simp only [List.length_reverse, List.length_cons]; omega
          · have := ih [] (szText r) bs' (by omega) (by simp [textSum]) hrec b hb'
            refine ⟨this.1, ?_⟩
            have := this.2
            simp only [List.length_nil, List.length_cons] at *
            omega
      · rw [if_neg h2] at hok
        have := ih (r :: acc) (current + szText r) bs (by omega)
          (by rw [textSum_cons]; omega) hok b hb
        refine ⟨this.1, ?_⟩
        have := this.2
        simp only [List.length_cons] at *
        omega

/-- The only error the greedy re-split raises is the oversized-text one. -/
theorem splitLoop_error_msg (szText : Record → Nat) (limit : Nat)
    (rest : List Record) : ∀ (acc : List Record) (current : Nat) (e : String),
    splitLoop szText limit acc current rest = .error e → e = oversizedMsg := by
  induction rest with
  | nil => intro acc current e h; unfold splitLoop at h; cases h
  | cons r rest ih =>
    intro acc current e h
    unfold splitLoop at h
    by_cases h1 : limit < szText r
    · rw [if_pos h1] at h; injection h with h; exact h.symm
    · rw [if_neg h1] at h
      by_cases h2 : limit < current + szText r
      · rw [if_pos h2] at h
        cases hrec : splitLoop szText limit [] (szText r) rest with
        | error e' =>
          rw [hrec] at h
          injection h with h
          rw [← h]
          exact ih [] (szText r) e' hrec
        | ok bs' => rw [hrec] at h; cases h
      · rw [if_neg h2] at h
        exact ih (r :: acc) (current + szText r) e h

/-- The greedy re-split fails with the oversized-text error whenever one of
the remaining records alone exceeds the byte limit. -/
theorem splitLoop_oversized (szText : Record → Nat) (limit : Nat)
    (rest : List Record) : ∀ (acc : List Record) (current : Nat),
    (∃ r ∈ rest, limit < szText r) →
    splitLoop szText limit acc current rest = .error oversizedMsg := by
  induction rest with
  | nil => rintro acc current ⟨r, hr, -⟩; cases hr
  | cons r rest ih =>
    rintro acc current ⟨r', hr', hlt⟩
    unfold splitLoop
    by_cases h1 : limit < szText r
    · rw [if_pos h1]
    · rw [if_neg h1]
      have hr'rest : r' ∈ rest := by
        rcases List.mem_cons.mp hr' with rfl | h
        · exact absurd hlt h1
        · exact h
      by_cases h2 : limit < current + szText r
      · rw [if_pos h2, ih [] (szText r) ⟨r', hr'rest, hlt⟩]
      · rw [if_neg h2]
        exact ih (r :: acc) (current + szText r) ⟨r', hr'rest, hlt⟩

theorem le_ks_mul_numGroupLabels (n ks : Nat) (hks : 1 ≤ ks) :
    n ≤ ks * numGroupLabels n ks := by
  unfold numGroupLabels
  have h1 : ks * ((n + ks - 1) / ks) + (n + ks - 1) % ks = n + ks - 1 :=
    Nat.div_add_mod _ _
  have h2 : (n + ks - 1) % ks < ks := Nat.mod_lt _ (by omega)
  have h3 : ks * ((n + ks - 1) / ks + 1) = ks * ((n + ks - 1) / ks) + ks := by
    ring
  omega

/-- At most `ks` numbers below `n` share a residue class modulo `m`, as
soon as `n ≤ ks * m`. -/
theorem filter_mod_length_le (n m g ks : Nat) (hm0 : 0 < m)
    (hn : n ≤ ks * m) :
    ((List.range n).filter fun i => decide (i % m = g)).length ≤ ks := by
  set L := (List.range n).filter fun i => decide (i % m = g) with hL
  have hmem : ∀ x ∈ L, x < n ∧ x % m = g := by
    intro x hx
    rw [hL, List.mem_filter] at hx
    exact ⟨List.mem_range.mp hx.1, of_decide_eq_true hx.2⟩
  have hnodupL : L.Nodup := (List.nodup_range n).filter _
  have hnodupM : (L.map (· / m)).Nodup := by
    refine List.Nodup.map_on ?_ hnodupL
    intro x hx y hy hdiv
    have hx2 := (hmem x hx).2
    have hy2 := (hmem y hy).2
    have e1 := Nat.div_add_mod x m
    have e2 := Nat.div_add_mod y m
    rw [hdiv, hx2] at e1
    rw [hy2] at e2
    omega
  have hsub : (L.map (· / m)).toFinset ⊆ Finset.range ks := by
    intro y hy
    rw [List.mem_toFinset] at hy
    rcases List.mem_map.mp hy with ⟨x, hx, rfl⟩
    refine Finset.mem_range.mpr ?_
    exact (Nat.div_lt_iff_lt_mul hm0).mpr (lt_of_lt_of_le (hmem x hx).1 hn)
  have hcard := Finset.card_le_card hsub
  rw [List.toFinset_card_of_nodup hnodupM, Finset.card_range,
    List.length_map] at hcard
  exact hcard

theorem stride_length_le (data : List Record) (ks g : Nat) (hks : 1 ≤ ks) :
    (stride data (numGroupLabels data.length ks) g).length ≤ ks := by
  have hm0 : 0 < numGroupLabels data.length ks := Nat.succ_pos _
  refine le_trans (List.length_filterMap_le _ _) ?_
  exact filter_mod_length_le data.length _ g ks hm0
    (le_ks_mul_numGroupLabels data.length ks hks)

theorem getElem_mem_stride (data : List Record) (m i : Nat)
    (hi : i < data.length) : data[i] ∈ stride data m (i % m) := by
  unfold stride
  refine List.mem_filterMap.mpr ⟨i, ?_, List.getElem?_eq_getElem hi⟩
  exact List.mem_filter.mpr ⟨List.mem_range.mpr hi, by simp⟩

/-- Every deduplicated record lands in one of the round-robin groups. -/
theorem mem_groupsOf (data : List Record) (m : Nat) (hm : 0 < m)
    (r : Record) (hr : r ∈ data) : ∃ b ∈ groupsOf data m, r ∈ b := by
  rcases List.mem_iff_getElem.mp hr with ⟨i, hi, rfl⟩
  refine ⟨stride data m (i % m), ?_, getElem_mem_stride data m i hi⟩
  unfold groupsOf
  refine List.mem_filter.mpr ⟨?_, ?_⟩
  · exact List.mem_map.mpr ⟨i % m, List.mem_range.mpr (Nat.mod_lt _ hm), rfl⟩
  · have hmem := getElem_mem_stride data m i hi
    cases hstr : stride data m (i % m) with
    | nil => rw [hstr] at hmem; cases hmem
    | cons a l => simp

theorem mapME_ok_mem {α β : Type} (f : α → Except String β) (l : List α) :
    ∀ (ys : List β), mapME f l = .ok ys → ∀ y ∈ ys, ∃ x ∈ l, f x = .ok y := by
  induction l with
  | nil =>
    intro ys h y hy
    unfold mapME at h
    injection h with h
    subst h
    cases hy
  | cons x l ih =>
    intro ys h y hy
    unfold mapME at h
    cases hfx : f x with
    | error e => rw [hfx] at h; cases h
    | ok y0 =>
      rw [hfx] at h
      cases hml : mapME f l with
      | error e => rw [hml] at h; cases h
      | ok ys' =>
        rw [hml] at h
        injection h with h
        subst h
        rcases List.mem_cons.mp hy with rfl | hy'
        · exact ⟨x, List.mem_cons_self x l, hfx⟩
        · rcases ih ys' hml y hy' with ⟨x', hx', hfx'⟩
          exact ⟨x', List.mem_cons_of_mem x hx', hfx'⟩

theorem mapME_error_of_mem {α β : Type} (f : α → Except String β)
    (msg : String) (hall : ∀ x e, f x = .error e → e = msg) (l : List α) :
    (∃ x ∈ l, f x = .error msg) → mapME f l = .error msg := by
  induction l with
  | nil => rintro ⟨x, hx, -⟩; cases hx
  | cons x l ih =>
    rintro ⟨x', hx', hfe⟩
    unfold mapME
    cases hfx : f x with
    | error e0 => rw [hall x e0 hfx]
    | ok y =>
      have hx'l : x' ∈ l := by
        rcases List.mem_cons.mp hx' with rfl | h
        · rw [hfx] at hfe; cases hfe
        · exact h
      rw [ih ⟨x', hx'l, hfe⟩]

theorem bundleGroup_error_msg (szText : Record → Nat)
    (szDf : List Record → Nat) (limit : Nat) (g : List Record) (e : String)
    (h : bundleGroup szText szDf limit g = .error e) : e = oversizedMsg := by
  unfold bundleGroup at h
  by_cases h1 : limit < szDf g
  · rw [if_pos h1] at h
    exact splitLoop_error_msg szText limit g [] 0 e h
  · rw [if_neg h1] at h; cases h

/-- A group containing a record over the byte limit makes `bundleGroup`
fail with the oversized-text error, as long as the DataFrame size measure
dominates each contained text's size. -/
theorem bundleGroup_oversized (szText : Record → Nat)
    (szDf : List Record → Nat) (limit : Nat) (g : List Record)
    (hdom : ∀ r ∈ g, szText r ≤ szDf g)
    (hover : ∃ r ∈ g, limit < szText r) :
    bundleGroup szText szDf limit g = .error oversizedMsg := by
  unfold bundleGroup
  rcases hover with ⟨r, hr, hlt⟩
  rw [if_pos (lt_of_lt_of_le hlt (hdom r hr))]
  exact splitLoop_oversized szText limit g [] 0 ⟨r, hr, hlt⟩

/-! ## The spec-side survival predicate

Modelled from the spec's words for comparison with `dedup` (the code-side
filter): a record survives iff its text is empty, missing, or the first
occurrence of that exact text in input order. -/

/-- Survival of position `i` of `rs`, generalized over `seen`, the texts
standing before `rs`: the text is empty, missing, or occurs neither in
`seen` nor earlier in `rs`. -/
def survivesFrom (seen : List (Option String)) (rs : List Record) (i : Nat) :
    Bool :=
  match rs[i]? with
  | none => false
  | some r =>
    decide (r.text = some "") || decide (r.text = none) ||
      (!(seen.any fun t => decide (t = r.text)) &&
        ((rs.take i).all fun s => !(decide (s.text = r.text))))

/-- Spec-side survival: position `i` of `rs` holds an empty text, a missing
text, or the first occurrence of its exact text in input order. -/
def survives (rs : List Record) (i : Nat) : Bool := survivesFrom [] rs i

theorem bool_cond_zero : ∀ a e n : Bool,
    (!a || e || n) = (e || n || (!a && true)) := by decide

theorem bool_cond_succ : ∀ e n a d al : Bool,
    (e || n || (!a && (!d && al))) = (e || n || (!(d || a) && al)) := by decide

theorem survivesFrom_zero (r : Record) (tl : List Record)
    (seen : List (Option String)) :
    survivesFrom seen (r :: tl) 0
      = (!(seen.any fun t => decide (t = r.text)) || decide (r.text = some "")
          || decide (r.text = none)) := by
  unfold survivesFrom
  simp only [List.getElem?_cons_zero, List.take_zero, List.all_nil]
  exact (bool_cond_zero _ _ _).symm

theorem survivesFrom_succ (r : Record) (tl : List Record)
    (seen : List (Option String)) (i : Nat) :
    survivesFrom seen (r :: tl) (i + 1) = survivesFrom (r.text :: seen) tl i := by
  unfold survivesFrom
  rw [List.getElem?_cons_succ]
  cases h : tl[i]? with
  | none => rfl
  | some s =>
    simp only [List.take_succ_cons, List.all_cons, List.any_cons]
    exact bool_cond_succ _ _ _ _ _

theorem dedupAux_eq_spec (rs : List Record) : ∀ seen : List (Option String),
    dedupAux seen rs
      = ((List.range rs.length).filter (survivesFrom seen rs)).filterMap
          fun i => rs[i]? := by
  induction rs with
  | nil => intro seen; rfl
  | cons r tl ih =>
    intro seen
    have hp : survivesFrom seen (r :: tl) ∘ Nat.succ
        = survivesFrom (r.text :: seen) tl :=
      funext fun i => survivesFrom_succ r tl seen i
    have hf : ((fun i => (r :: tl)[i]?) ∘ Nat.succ) = fun i => tl[i]? :=
      funext fun i => List.getElem?_cons_succ
    have hcond : dedupAux seen (r :: tl)
        = if survivesFrom seen (r :: tl) 0 then
            r :: dedupAux (r.text :: seen) tl
          else dedupAux (r.text :: seen) tl := by
      rw [survivesFrom_zero]
      rfl
    rw [hcond, List.length_cons, List.range_succ_eq_map, List.filter_cons]
    cases h0 : survivesFrom seen (r :: tl) 0 with
    | false =>
      simp only [Bool.false_eq_true, if_false, List.filter_map,
        List.filterMap_map, hp, hf, ih]
    | true =>
      simp only [if_true, List.filterMap_cons, List.getElem?_cons_zero,
        List.filter_map, List.filterMap_map, hp, hf, ih]

/-- C8: a record survives the deduplication of request.py line 140 exactly
when its text is empty, missing, or the first occurrence of that exact text
in input order — `dedup` keeps precisely the records at spec-surviving
positions, in order.  In particular records with empty or missing text are
always retained, even when identical to an earlier one. -/
theorem c8_dedup_keeps_empty_missing_or_first (rs : List Record) :
    dedup rs
      = ((List.range rs.length).filter (survives rs)).filterMap
          fun i => rs[i]? :=
  dedupAux_eq_spec rs []

/-- Witness for `c8_dedup_keeps_empty_missing_or_first` on a concrete input
with a duplicate non-empty text, duplicate empty texts and duplicate
missing texts. -/
theorem c8_dedup_keeps_empty_missing_or_first_witness :
    dedup [⟨1, some "a"⟩, ⟨2, some "a"⟩, ⟨3, some ""⟩, ⟨4, some ""⟩,
        ⟨5, none⟩, ⟨6, none⟩]
      = ((List.range 6).filter
            (survives [⟨1, some "a"⟩, ⟨2, some "a"⟩, ⟨3, some ""⟩,
              ⟨4, some ""⟩, ⟨5, none⟩, ⟨6, none⟩])).filterMap
          (fun i => [(⟨1, some "a"⟩ : Record), ⟨2, some "a"⟩, ⟨3, some ""⟩,
              ⟨4, some ""⟩, ⟨5, none⟩, ⟨6, none⟩][i]?) :=
  c8_dedup_keeps_empty_missing_or_first
    [⟨1, some "a"⟩, ⟨2, some "a"⟩, ⟨3, some ""⟩, ⟨4, some ""⟩,
      ⟨5, none⟩, ⟨6, none⟩]

/-! ## Claim theorems -/

/-- C1: the claim (one result row per original input record, matched by
ContentKey, ordered by first appearance of the record's id) fails on the
code.  A fully successful run on four distinct equal-size texts with
`bundle_size = 2` returns its rows in the round-robin group order
t0, t3, t1, t2 — not the input order t0, t1, t2, t3 — because the tiled
label array of line 145 is never sorted; and an input containing an exact
duplicate never completes successfully at all: deduplication shortens the
frame while the label array keeps length `n_texts`, so pandas raises at the
`groupby` of line 144. -/
theorem c1_rows_not_in_input_order :
    runRequest (fun _ => 1) (fun g => g.length) (echoApi id) 2 7500000 50
        [⟨1, some "t0"⟩, ⟨2, some "t1"⟩, ⟨3, some "t2"⟩, ⟨4, some "t3"⟩]
      = .ok [⟨"t0"⟩, ⟨"t3"⟩, ⟨"t1"⟩, ⟨"t2"⟩] ∧
    [ResultRow.mk "t0", ⟨"t3"⟩, ⟨"t1"⟩, ⟨"t2"⟩]
      ≠ [⟨"t0"⟩, ⟨"t1"⟩, ⟨"t2"⟩, ⟨"t3"⟩] ∧
    runRequest (fun _ => 1) (fun g => g.length) (echoApi id) 2 7500000 50
        [⟨1, some "a"⟩, ⟨2, some "a"⟩] = .error grouperMsg :=
  ⟨rfl, by decide, rfl⟩

/-- C2: the claim (a bundle that fails and then succeeds on a retry
contributes its normalized rows) fails on the code.  `_process` discards
the return value of its recursive retry call, so a bundle answered 500 and
then 200 yields `None` (only the retry counter mutation survives), and its
rows are silently absent from the concatenated output, which keeps only the
other bundle's rows. -/
theorem c2_retry_success_discarded :
    processBundle [⟨500, []⟩, ⟨200, [⟨"h"⟩]⟩] 50 = (none, 49) ∧
    concatResults [(processBundle [⟨500, []⟩, ⟨200, [⟨"h"⟩]⟩] 50).1,
        some [⟨"k"⟩]] = .ok [⟨"k"⟩] :=
  ⟨rfl, rfl⟩

/-- C3: the claim (a bundle that exhausts its retry budget aborts the whole
run with an identifying error, and no partial table is returned) fails on
the code.  An always-failing bundle just returns `None` after burning its
budget — no exception is raised anywhere — and `pandas.concat` drops the
`None` silently, so the run returns a partial table holding only the other
bundle's rows. -/
theorem c3_exhausted_bundle_partial_output :
    processBundle (List.replicate 3 ⟨500, []⟩) 2 = (none, 0) ∧
    concatResults [(processBundle (List.replicate 3 ⟨500, []⟩) 2).1,
        some [⟨"k"⟩]] = .ok [⟨"k"⟩] :=
  ⟨rfl, rfl⟩

/-- C4: the claim (bundles are contiguous slices whose concatenation is the
deduplicated sequence in order, each record in exactly one bundle) fails on
the code.  With four records and `bundle_size = 2` the unsorted tiled label
array assigns record `i` to group `i % 3`, giving the non-contiguous
bundles [r0, r3], [r1], [r2] whose concatenation reorders the records; and
when a group is re-split over the byte limit, the record at each split
boundary is dropped from every bundle (`start = end = end + 1` skips it):
with three records of size 5 under limit 8, record r2 lands in no bundle
and an empty bundle is emitted. -/
theorem c4_bundles_not_contiguous :
    prepareBundles (fun _ => 1) (fun g => g.length) 2 7500000 4
        [⟨1, some "t0"⟩, ⟨2, some "t1"⟩, ⟨3, some "t2"⟩, ⟨4, some "t3"⟩]
      = .ok [[⟨1, some "t0"⟩, ⟨4, some "t3"⟩], [⟨2, some "t1"⟩],
          [⟨3, some "t2"⟩]] ∧
    [[(⟨1, some "t0"⟩ : Record), ⟨4, some "t3"⟩], [⟨2, some "t1"⟩],
        [⟨3, some "t2"⟩]].flatten
      ≠ [⟨1, some "t0"⟩, ⟨2, some "t1"⟩, ⟨3, some "t2"⟩, ⟨4, some "t3"⟩] ∧
    prepareBundles (fun _ => 5) (fun _ => 15) 1000 8 3
        [⟨1, some "t0"⟩, ⟨2, some "t1"⟩, ⟨3, some "t2"⟩]
      = .ok [[⟨1, some "t0"⟩], [], [⟨2, some "t1"⟩]] ∧
    (⟨3, some "t2"⟩ : Record) ∉
      [[(⟨1, some "t0"⟩ : Record)], [], [⟨2, some "t1"⟩]].flatten :=
  ⟨rfl, by decide, rfl, by decide⟩

/-- C6: the claim (no surviving record fails the run with the
no-valid-texts error before bundling) fails on the code.  The only way no
record survives line 140 is empty input (the first occurrence of any text
is always kept), and there the guard `if not data.ndim` of line 141 never
fires because `DataFrame.ndim` is always 2; the run proceeds through
bundling with zero bundles and only dies inside `pandas.concat` with the
unrelated "No objects to concatenate" error. -/
theorem c6_empty_input_not_caught :
    dedup [] = [] ∧
    noValidTextsRaised (dedup []) = false ∧
    runRequest (fun _ => 1) (fun g => g.length) (echoApi id) 1000 7500000 50 []
      = .error "No objects to concatenate" ∧
    "No objects to concatenate" ≠ "no valid texts to process" :=
  ⟨rfl, rfl, rfl, by decide⟩

/-- C9: requesting the single framework `"X"` (as a string) on a result
table with columns X.a, X.b, Y.c, request_id keeps exactly request_id, X.a
and X.b (in the table's column order), and since exactly one framework was
requested, `framework_prefix` defaults to `False` and the surviving
framework columns are renamed to a and b while request_id is untouched. -/
theorem c9_single_framework_selection :
    filterColumns ["request_id", "X"] ["X.a", "X.b", "Y.c", "request_id"]
      = ["X.a", "X.b", "request_id"] ∧
    postProcessColumns ["X.a", "X.b", "Y.c", "request_id"] "X" none
      = ["a", "b", "request_id"] :=
  ⟨by decide, by decide⟩

/-- C10: when `output` is a path, the concatenated result is persisted with
its columns unchanged — so any of the internal metadata columns present in
the API results are retained in the CSV — and only afterwards are those
metadata columns dropped, so the table handed on to the caller contains
none of them. -/
theorem c10_write_before_drop (path : String) (cols : List String) :
    (writeThenDrop (some path) cols).1 = some cols ∧
    (∀ c ∈ metadataColumns, c ∈ cols →
      ∃ w, (writeThenDrop (some path) cols).1 = some w ∧ c ∈ w) ∧
    ∀ c ∈ metadataColumns, c ∉ (writeThenDrop (some path) cols).2 := by
  refine ⟨rfl, fun c _ hc => ⟨cols, rfl, hc⟩, ?_⟩
  intro c hc hmem
  simp only [writeThenDrop, dropMetadata, List.mem_filter, Bool.not_eq_true',
    decide_eq_false_iff_not] at hmem
  exact hmem.2 hc

/-- Witness for `c10_write_before_drop` at a concrete path and column
list. -/
theorem textSum_const_one (l : List Record) :
    textSum (fun _ => 1) l ≤ l.length := by
  induction l with
  | nil => simp [textSum]
  | cons r l ih =>
    rw [textSum_cons, List.length_cons]
    omega

/-- C5 counterexample: the count bound fails as stated.  With
`bundle_size = 0` the clamp `min(1000, max(1, bundle_size))` of line 143
still makes one-record bundles, so a produced bundle holds 1 > 0 records
without taking any fatal path. -/
theorem c5_count_bound_fails_at_zero :
    prepareBundles (fun _ => 1) (fun g => g.length) 0 7500000 1
        [⟨1, some "a"⟩] = .ok [[⟨1, some "a"⟩]] ∧
    ¬ [(⟨1, some "a"⟩ : Record)].length ≤ 0 :=
  ⟨rfl, by decide⟩

/-- C5 amended: every bundle a successful preparation produces holds at
most `min(1000, max(1, bundle_size))` records — hence at most
`bundle_size` whenever `bundle_size ≥ 1` — and its total per-text byte
size is at most `bundle_byte_limit`, provided the DataFrame size measure
dominates the summed per-text sizes (pandas' deep `__sizeof__` does); the
only exception path is the fatal oversized-record error, which makes the
preparation fail rather than produce bundles. -/
theorem c5_bundle_bounds (szText : Record → Nat) (szDf : List Record → Nat)
    (bundle_size limit n_texts : Nat) (data : List Record)
    (bs : List (List Record))
    (hdom : ∀ g : List Record, textSum szText g ≤ szDf g)
    (hok : prepareBundles szText szDf bundle_size limit n_texts data = .ok bs) :
    ∀ b ∈ bs, b.length ≤ bundleCount bundle_size ∧
      (1 ≤ bundle_size → b.length ≤ bundle_size) ∧
      textSum szText b ≤ limit := by
  have hks1 : 1 ≤ bundleCount bundle_size := one_le_bundleCount bundle_size
  have hksle : 1 ≤ bundle_size → bundleCount bundle_size ≤ bundle_size := by
    unfold bundleCount; omega
  intro b hb
  unfold prepareBundles at hok
  by_cases hlen : data.length ≠ n_texts
  · rw [if_pos hlen] at hok; cases hok
  · rw [if_neg hlen] at hok
    have hlen' : data.length = n_texts := not_not.mp hlen
    cases hmm : mapME (bundleGroup szText szDf limit)
        (groupsOf data (numGroupLabels n_texts (bundleCount bundle_size))) with
    | error e => rw [hmm] at hok; cases hok
    | ok bss =>
      rw [hmm] at hok
      injection hok with hok
      subst hok
      obtain ⟨bl, hbl, hbbl⟩ := List.mem_flatten.mp hb
      obtain ⟨g, hg, hgok⟩ := mapME_ok_mem _ _ bss hmm bl hbl
      have hglen : g.length ≤ bundleCount bundle_size := by
        unfold groupsOf at hg
        obtain ⟨hg1, -⟩ := List.mem_filter.mp hg
        obtain ⟨lab, -, rfl⟩ := List.mem_map.mp hg1
        rw [← hlen']
        exact stride_length_le data (bundleCount bundle_size) lab hks1
      unfold bundleGroup at hgok
      by_cases hsz : limit < szDf g
      · rw [if_pos hsz] at hgok
        have hbd := splitLoop_bounds szText limit g [] 0 bl (Nat.zero_le _)
          (by simp [textSum]) hgok b hbbl
        have hlb : b.length ≤ g.length := by
          have := hbd.2
          simpa using this
        exact ⟨le_trans hlb hglen,
          fun h => le_trans (le_trans hlb hglen) (hksle h), hbd.1⟩
      · rw [if_neg hsz] at hgok
        injection hgok with hgok
        subst hgok
        rcases List.mem_singleton.mp hbbl with rfl
        exact ⟨hglen, fun h => le_trans hglen (hksle h),
          le_trans (hdom b) (not_lt.mp hsz)⟩

/-- Witness for `c5_bundle_bounds`: two distinct one-byte texts under the
default settings yield two singleton bundles; the first is within both
bounds. -/
theorem c5_bundle_bounds_witness :
    [(⟨1, some "a"⟩ : Record)].length ≤ bundleCount 1000 ∧
    [(⟨1, some "a"⟩ : Record)].length ≤ 1000 ∧
    textSum (fun _ => 1) [(⟨1, some "a"⟩ : Record)] ≤ 7500000 :=
  have h := c5_bundle_bounds (fun _ => 1) (fun g => g.length) 1000 7500000 2
    [⟨1, some "a"⟩, ⟨2, some "b"⟩] [[⟨1, some "a"⟩], [⟨2, some "b"⟩]]
    textSum_const_one rfl [⟨1, some "a"⟩] (by decide)
  ⟨h.1, h.2.1 (by decide), h.2.2⟩

/-- C7 counterexample: the claim fails as stated.  An input holding an
over-limit text AND an exact duplicate pair fails with pandas'
length-mismatch error at the `groupby` of line 144 — deduplication
shortened the frame below `n_texts` before the per-text size check of line
153 could ever run — not with the oversized-record error.  (No scoring
call is made either way.) -/
theorem c7_duplicate_masks_oversized_error :
    runRequest (fun r => if r.text = some "B" then 7500001 else 10)
        (textSum fun r => if r.text = some "B" then 7500001 else 10)
        (echoApi id) 1000 7500000 50
        [⟨1, some "B"⟩, ⟨2, some "a"⟩, ⟨3, some "a"⟩]
      = .error grouperMsg ∧
    grouperMsg ≠ oversizedMsg :=
  ⟨rfl, by decide⟩

/-- C7 amended: whenever deduplication removed no records (so the grouper
lengths match) and some input record's text alone exceeds the byte limit,
bundle preparation fails with the oversized-record error — before any
dispatch, since dispatch only ever sees successfully prepared bundles —
provided the DataFrame size measure dominates each contained text's
size. -/
theorem c7_oversized_aborts_before_dispatch (szText : Record → Nat)
    (szDf : List Record → Nat) (bundle_size limit n_texts : Nat)
    (data : List Record) (hlen : data.length = n_texts)
    (hdom : ∀ (g : List Record), ∀ r ∈ g, szText r ≤ szDf g)
    (hover : ∃ r ∈ data, limit < szText r) :
    prepareBundles szText szDf bundle_size limit n_texts data
      = .error oversizedMsg := by
  unfold prepareBundles
  rw [if_neg (by omega)]
  have hm : 0 < numGroupLabels n_texts (bundleCount bundle_size) :=
    Nat.succ_pos _
  rcases hover with ⟨r, hr, hlt⟩
  obtain ⟨b, hb, hrb⟩ := mem_groupsOf data _ hm r hr
  have herr := mapME_error_of_mem (bundleGroup szText szDf limit)
    oversizedMsg (fun g e h => bundleGroup_error_msg szText szDf limit g e h)
    (groupsOf data (numGroupLabels n_texts (bundleCount bundle_size)))
    ⟨b, hb, bundleGroup_oversized szText szDf limit b (hdom b) ⟨r, hrb, hlt⟩⟩
  rw [herr]

/-- Witness for `c7_oversized_aborts_before_dispatch`: one record whose
text size exceeds the default byte limit. -/
theorem c7_oversized_aborts_before_dispatch_witness :
    prepareBundles (fun _ => 7500001) (fun _ => 7500001) 1000 7500000 1
        [⟨1, some "B"⟩] = .error oversizedMsg :=
  c7_oversized_aborts_before_dispatch (fun _ => 7500001) (fun _ => 7500001)
    1000 7500000 1 [⟨1, some "B"⟩] rfl (fun _ r _ => le_rfl)
    ⟨⟨1, some "B"⟩, by decide, by decide⟩

theorem c10_write_before_drop_witness :
    (writeThenDrop (some "out.csv") ["p.x", "version"]).1
      = some ["p.x", "version"] ∧
    "version" ∉ (writeThenDrop (some "out.csv") ["p.x", "version"]).2 :=
  have h := c10_write_before_drop "out.csv" ["p.x", "version"]
  ⟨h.1, h.2.2 "version" (by decide)⟩

end Receptiviti
